import Mathlib

set_option maxRecDepth 100000

/-!
A shallow embedding of the listpack raw engine (`src/raw.rs`) over byte
buffers modelled as `List Nat` (each element a byte value `< 256`).
Buffer offsets play the role of the raw pointers of the source; offset 0
is the base address of the allocation, so an element pointer `p` of the
source corresponds to the byte offset `p`.  Machine integers are modelled
as `Nat`/`Int` with explicit `% 2^w` at the points where the source
performs a narrowing cast or wrapping arithmetic.
-/

/-- Reading one byte at offset `i`; out-of-range reads (undefined behaviour
in the source) return 0 in the model. -/
def readByte (buf : List Nat) (i : Nat) : Nat := buf.getD i 0

/-- Reading at a possibly negative offset (used by the backward backlen scan). -/
def readByteI (buf : List Nat) (i : Int) : Nat :=
  if i < 0 then 0 else buf.getD i.toNat 0

/-- Writing one byte (`*p.offset(i) = v`); out-of-range writes are no-ops. -/
def writeByte (buf : List Nat) (i : Nat) (v : Nat) : List Nat := buf.set i v

/-- `ptr::copy_nonoverlapping(data, buf+pos, data.len())`: overwrite the
window starting at `pos` with the bytes of `data`. -/
def writeBytes (buf : List Nat) (pos : Nat) (data : List Nat) : List Nat :=
  (List.range buf.length).map
    (fun i => if pos ≤ i ∧ i < pos + data.length then data.getD (i - pos) 0 else readByte buf i)

/-- `std::ptr::copy(lp+src, lp+dst, n)` (memmove semantics: reads the
original buffer). -/
def copyWithin (buf : List Nat) (src dst n : Nat) : List Nat :=
  (List.range buf.length).map
    (fun i => if dst ≤ i ∧ i < dst + n then readByte buf (src + (i - dst)) else readByte buf i)

/-- The EOF terminator byte. -/
def EOF : Nat := 0xFF

def HDR_SIZE : Nat := 6
def HDR_NUMELE_UNKNOWN : Nat := 0xFFFF

/-- `get_total_bytes`: little-endian u32 at offsets 0..3. -/
def get_total_bytes (buf : List Nat) : Nat :=
  (readByte buf 0) ||| ((readByte buf 1) <<< 8) ||| ((readByte buf 2) <<< 16) |||
    ((readByte buf 3) <<< 24)

/-- `set_total_bytes`. -/
def set_total_bytes (buf : List Nat) (v : Nat) : List Nat :=
  writeByte (writeByte (writeByte (writeByte buf 0 (v &&& 0xff))
    1 ((v >>> 8) &&& 0xff)) 2 ((v >>> 16) &&& 0xff)) 3 ((v >>> 24) &&& 0xff)

/-- `get_num_elements`: little-endian u16 at offsets 4..5. -/
def get_num_elements (buf : List Nat) : Nat :=
  (readByte buf 4) ||| ((readByte buf 5) <<< 8)

/-- `set_num_elements`. -/
def set_num_elements (buf : List Nat) (v : Nat) : List Nat :=
  writeByte (writeByte buf 4 (v &&& 0xff)) 5 ((v >>> 8) &&& 0xff)

/- Tag-dispatch predicates on a leading byte. -/

def is_7bit_uint (b : Nat) : Bool := b &&& 0x80 == 0
def is_6bit_str (b : Nat) : Bool := b &&& 0xC0 == 0x80
def is_13bit_int (b : Nat) : Bool := b &&& 0xE0 == 0xC0
def is_12bit_str (b : Nat) : Bool := b &&& 0xF0 == 0xE0
def is_16bit_int (b : Nat) : Bool := b &&& 0xFF == 0xF1
def is_24bit_int (b : Nat) : Bool := b &&& 0xFF == 0xF2
def is_32bit_int (b : Nat) : Bool := b &&& 0xFF == 0xF3
def is_64bit_int (b : Nat) : Bool := b &&& 0xFF == 0xF4
def is_32bit_str (b : Nat) : Bool := b &&& 0xFF == 0xF0

/-- `str_len_6bit`: `(*p) & 0x3F`. -/
def str_len_6bit (buf : List Nat) (p : Nat) : Nat := (readByte buf p) &&& 0x3F

/-- `str_len_12bit`: `((*p) & 0xF) as u32 | (*p.offset(1)) as u32`
(the source combines the two bytes with `|` and no shift). -/
def str_len_12bit (buf : List Nat) (p : Nat) : Nat :=
  ((readByte buf p) &&& 0xF) ||| (readByte buf (p + 1))

/-- `str_len_32bit`: 4-byte little-endian length after the tag byte. -/
def str_len_32bit (buf : List Nat) (p : Nat) : Nat :=
  (readByte buf (p + 1)) ||| ((readByte buf (p + 2)) <<< 8) |||
    ((readByte buf (p + 3)) <<< 16) ||| ((readByte buf (p + 4)) <<< 24)

/-- `encode_int`: fill the scratch buffer `intenc` and report its length;
the model returns the written prefix as a list.  `v.to_le()` is the
identity on a little-endian host.  `x as u8` is modelled as `% 256`. -/
def encode_int (v : Int) : List Nat :=
  if 0 ≤ v ∧ v ≤ 127 then
    [v.toNat % 256]
  else if -4096 ≤ v ∧ v ≤ 4095 then
    -- `if v < 0 { v = (1i64 << 13) + v }`
    let w := (if v < 0 then 8192 + v else v).toNat
    [(((w >>> 8) % 256) ||| 0xC0), w &&& 0xff]
  else if -32768 ≤ v ∧ v ≤ 32767 then
    let w := (if v < 0 then 65536 + v else v).toNat
    [0xF1, w &&& 0xff, (w >>> 8) % 256]
  else if -8388608 ≤ v ∧ v ≤ 8388607 then
    let w := (if v < 0 then 16777216 + v else v).toNat
    [0xF2, w &&& 0xff, (w >>> 8) &&& 0xff, (w >>> 16) % 256]
  else if -2147483648 ≤ v ∧ v ≤ 2147483647 then
    let w := (if v < 0 then 4294967296 + v else v).toNat
    [0xF3, w &&& 0xff, (w >>> 8) &&& 0xff, (w >>> 16) &&& 0xff, (w >>> 24) % 256]
  else
    -- `let uv = v as u64`
    let w := (v % 18446744073709551616).toNat
    [0xF4, w &&& 0xff, (w >>> 8) &&& 0xff, (w >>> 16) &&& 0xff, (w >>> 24) &&& 0xff,
      (w >>> 32) &&& 0xff, (w >>> 40) &&& 0xff, (w >>> 48) &&& 0xff, (w >>> 56) % 256]

/-- `string_front_len`. -/
def string_front_len (size : Nat) : Nat :=
  if size < 64 then 1 else if size < 4096 then 2 else 5

/-- `encode_string`: write the length-prefix tag bytes followed by the
payload into a fresh buffer (the source writes into `buf` and returns the
number of bytes written; the model returns exactly those bytes). -/
def encode_string (s : List Nat) : List Nat :=
  let size := s.length
  if size < 64 then
    (size ||| 0x80) :: s
  else if size < 4096 then
    ((size >>> 8) ||| 0xE0) :: (size &&& 0xff) :: s
  else
    0xF0 :: (size &&& 0xff) :: ((size >>> 8) &&& 0xff) :: ((size >>> 16) &&& 0xff) ::
      ((size >>> 24) &&& 0xff) :: s

/-- `encode_backlen`: the 1-5 bytes written for a tag+payload length `l`
(the source fills `buf` and returns the count; here the list of written
bytes, whose length is that count). -/
def encode_backlen (l : Nat) : List Nat :=
  if l ≤ 127 then
    [l % 256]
  else if l < 16383 then
    [(l >>> 7) % 256, (l &&& 127) ||| 128]
  else if l < 2097151 then
    [(l >>> 14) % 256, ((l >>> 7) &&& 127) ||| 128, (l &&& 127) ||| 128]
  else if l < 268435455 then
    [(l >>> 21) % 256, ((l >>> 14) &&& 127) ||| 128, ((l >>> 7) &&& 127) ||| 128,
      (l &&& 127) ||| 128]
  else
    [(l >>> 28) % 256, ((l >>> 21) &&& 127) ||| 128, ((l >>> 14) &&& 127) ||| 128,
      ((l >>> 7) &&& 127) ||| 128, (l &&& 127) ||| 128]

/-- `backlen_size`. -/
def backlen_size (l : Nat) : Nat :=
  if l ≤ 127 then 1
  else if l < 16383 then 2
  else if l < 2097151 then 3
  else if l < 268435455 then 4
  else 5

/-- The loop of `decode_backlen`: accumulate the low 7 bits of each byte
scanning backward while the continuation bit is set; past 28 bits of
shift return the saturated `u64::max_value()` sentinel.  The `fuel`
argument only makes the recursion structural: the shift guard stops the
scan after at most 5 bytes, so starting fuel 5 is never exhausted. -/
def decode_backlen_loop (buf : List Nat) (p : Int) (shift val fuel : Nat) : Nat :=
  match fuel with
  | 0 => 18446744073709551615
  | fuel + 1 =>
    let b := readByteI buf p
    let val' := val ||| ((b &&& 127) <<< shift)
    if b &&& 128 = 0 then val'
    else if 28 < shift + 7 then 18446744073709551615
    else decode_backlen_loop buf (p - 1) (shift + 7) val' fuel

/-- `decode_backlen` starting at the byte at offset `p`. -/
def decode_backlen (buf : List Nat) (p : Int) : Nat :=
  decode_backlen_loop buf p 0 0 5

/-- Decoded element values.  The source's `Value::String(*const u8, u32)`
is a borrowed pointer/length pair; the model carries the denoted byte
slice directly (for an input value, its payload; for a decoded value, the
bytes of the buffer the pointer designates). -/
inductive Value where
  | int (v : Int)
  | str (data : List Nat)
deriving DecidableEq, Repr

/-- `uval as i64`: reinterpret a u64 as a two's-complement i64. -/
def i64_of_u64 (n : Nat) : Int :=
  if n < 9223372036854775808 then (n : Int) else (n : Int) - 18446744073709551616

/-- The sign-recovery tail of `get`: `if uval >= negstart { uval = negmax -
uval; val = uval as i64; val = -val - 1 } else { val = uval as i64 }`. -/
def get_signed (uval negstart negmax : Nat) : Value :=
  if negstart ≤ uval then Value.int (-(i64_of_u64 (negmax - uval)) - 1)
  else Value.int (i64_of_u64 uval)

/-- `get`: decode the element whose tag byte is at offset `p`. -/
def lp_get (buf : List Nat) (p : Nat) : Value :=
  let b := readByte buf p
  if is_7bit_uint b then
    get_signed (b &&& 0x7f) 18446744073709551615 0
  else if is_6bit_str b then
    Value.str ((buf.drop (p + 1)).take (str_len_6bit buf p))
  else if is_13bit_int b then
    get_signed (((b &&& 0x1f) <<< 8) ||| readByte buf (p + 1)) 4096 8191
  else if is_16bit_int b then
    get_signed ((readByte buf (p + 1)) ||| ((readByte buf (p + 2)) <<< 8)) 32768 65535
  else if is_24bit_int b then
    get_signed ((readByte buf (p + 1)) ||| ((readByte buf (p + 2)) <<< 8) |||
      ((readByte buf (p + 3)) <<< 16)) 8388608 16777215
  else if is_32bit_int b then
    get_signed ((readByte buf (p + 1)) ||| ((readByte buf (p + 2)) <<< 8) |||
      ((readByte buf (p + 3)) <<< 16) ||| ((readByte buf (p + 4)) <<< 24))
      2147483648 4294967295
  else if is_64bit_int b then
    get_signed ((readByte buf (p + 1)) ||| ((readByte buf (p + 2)) <<< 8) |||
      ((readByte buf (p + 3)) <<< 16) ||| ((readByte buf (p + 4)) <<< 24) |||
      ((readByte buf (p + 5)) <<< 32) ||| ((readByte buf (p + 6)) <<< 40) |||
      ((readByte buf (p + 7)) <<< 48) ||| ((readByte buf (p + 8)) <<< 56))
      9223372036854775808 18446744073709551615
  else if is_12bit_str b then
    Value.str ((buf.drop (p + 2)).take (str_len_12bit buf p))
  else if is_32bit_str b then
    Value.str ((buf.drop (p + 5)).take (str_len_32bit buf p))
  else
    get_signed (12345678900000000 + b) 18446744073709551615 0

/-- `get_encoded_size`: byte length of the tag+payload at `p` (0 when the
encoding is unrecognized). -/
def get_encoded_size (buf : List Nat) (p : Nat) : Nat :=
  let b := readByte buf p
  if is_7bit_uint b then 1
  else if is_6bit_str b then 1 + str_len_6bit buf p
  else if is_13bit_int b then 2
  else if is_16bit_int b then 3
  else if is_24bit_int b then 4
  else if is_32bit_int b then 5
  else if is_64bit_int b then 9
  else if is_12bit_str b then 2 + str_len_12bit buf p
  else if is_32bit_str b then 5 + str_len_32bit buf p
  else if b = EOF then 1
  else 0

/-- `Value::encoded_size`: byte length of tag+payload for a value. -/
def Value.encoded_size : Value → Nat
  | .int v =>
    if 0 ≤ v ∧ v ≤ 127 then 1
    else if -4096 ≤ v ∧ v ≤ 4095 then 2
    else if -32768 ≤ v ∧ v ≤ 32767 then 3
    else if -8388608 ≤ v ∧ v ≤ 8388607 then 4
    else if -2147483648 ≤ v ∧ v ≤ 2147483647 then 5
    else 9
  | .str data =>
    if data.length < 64 then 1 + data.length
    else if data.length < 4096 then 2 + data.length
    else 5 + data.length

/-- `Value::size_for_write`: tag+payload size plus its backlen size. -/
def Value.size_for_write (v : Value) : Nat :=
  v.encoded_size + backlen_size v.encoded_size

/-- `Value::encode_backlen`: write the 1-5 backlen bytes for length `l`
into the buffer starting at `pos` (same strict thresholds as
`encode_backlen`). -/
def Value.encode_backlen_at (buf : List Nat) (pos l : Nat) : List Nat :=
  if l ≤ 127 then writeByte buf pos (l % 256)
  else if l < 16383 then
    writeByte (writeByte buf pos ((l >>> 7) % 256)) (pos + 1) ((l &&& 127) ||| 128)
  else if l < 2097151 then
    writeByte (writeByte (writeByte buf pos ((l >>> 14) % 256))
      (pos + 1) (((l >>> 7) &&& 127) ||| 128)) (pos + 2) ((l &&& 127) ||| 128)
  else if l < 268435455 then
    writeByte (writeByte (writeByte (writeByte buf pos ((l >>> 21) % 256))
      (pos + 1) (((l >>> 14) &&& 127) ||| 128)) (pos + 2) (((l >>> 7) &&& 127) ||| 128))
      (pos + 3) ((l &&& 127) ||| 128)
  else
    writeByte (writeByte (writeByte (writeByte (writeByte buf pos ((l >>> 28) % 256))
      (pos + 1) (((l >>> 21) &&& 127) ||| 128)) (pos + 2) (((l >>> 14) &&& 127) ||| 128))
      (pos + 3) (((l >>> 7) &&& 127) ||| 128)) (pos + 4) ((l &&& 127) ||| 128)

/-- `Value::encode(dst, encoded_size)` where `encoded_size` is the entry
total (tag+payload+backlen), matched on for the integer classes.  Note
the string arms write the backlen of the *payload length* at offset
`dst + encoded_size` (one byte past the entry's backlen slot), exactly as
the source does. -/
def Value.encode (v : Value) (buf : List Nat) (dst : Nat) (encoded_size : Nat) : List Nat :=
  match v with
  | .int v0 =>
    match encoded_size with
    | 2 =>
      writeByte (writeByte buf dst (v0.toNat % 256)) (dst + 1) 1
    | 3 =>
      let w := (if v0 < 0 then 8192 + v0 else v0).toNat
      writeByte (writeByte (writeByte buf dst (((w >>> 8) % 256) ||| 0xC0))
        (dst + 1) (w &&& 0xff)) (dst + 2) 2
    | 4 =>
      let w := (if v0 < 0 then 65536 + v0 else v0).toNat
      writeByte (writeByte (writeByte (writeByte buf dst 0xF1)
        (dst + 1) (w &&& 0xff)) (dst + 2) ((w >>> 8) % 256)) (dst + 3) 3
    | 5 =>
      let w := (if v0 < 0 then 16777216 + v0 else v0).toNat
      writeByte (writeByte (writeByte (writeByte (writeByte buf dst 0xF2)
        (dst + 1) (w &&& 0xff)) (dst + 2) ((w >>> 8) &&& 0xff))
        (dst + 3) ((w >>> 16) % 256)) (dst + 4) 4
    | 6 =>
      let w := (if v0 < 0 then 4294967296 + v0 else v0).toNat
      writeByte (writeByte (writeByte (writeByte (writeByte (writeByte buf dst 0xF3)
        (dst + 1) (w &&& 0xff)) (dst + 2) ((w >>> 8) &&& 0xff))
        (dst + 3) ((w >>> 16) &&& 0xff)) (dst + 4) ((w >>> 24) % 256)) (dst + 5) 5
    | 10 =>
      let w := (v0 % 18446744073709551616).toNat
      writeByte (writeByte (writeByte (writeByte (writeByte (writeByte (writeByte
        (writeByte (writeByte (writeByte buf dst 0xF4)
        (dst + 1) (w &&& 0xff)) (dst + 2) ((w >>> 8) &&& 0xff))
        (dst + 3) ((w >>> 16) &&& 0xff)) (dst + 4) ((w >>> 24) &&& 0xff))
        (dst + 5) ((w >>> 32) &&& 0xff)) (dst + 6) ((w >>> 40) &&& 0xff))
        (dst + 7) ((w >>> 48) &&& 0xff)) (dst + 8) ((w >>> 56) % 256)) (dst + 9) 9
    | _ => buf
  | .str data =>
    let size := data.length
    if size < 64 then
      Value.encode_backlen_at
        (writeBytes (writeByte buf dst ((size % 256) ||| 0x80)) (dst + 1) data)
        (dst + encoded_size) size
    else if size < 4096 then
      Value.encode_backlen_at
        (writeBytes (writeByte (writeByte buf dst (((size >>> 8) % 256) ||| 0xE0))
          (dst + 1) (size &&& 0xff)) (dst + 2) data)
        (dst + encoded_size) size
    else
      Value.encode_backlen_at
        (writeBytes (writeByte (writeByte (writeByte (writeByte (writeByte buf dst 0xF0)
          (dst + 1) (size &&& 0xff)) (dst + 2) ((size >>> 8) &&& 0xff))
          (dst + 3) ((size >>> 16) &&& 0xff)) (dst + 4) ((size >>> 24) &&& 0xff))
          (dst + 5) data)
        (dst + encoded_size) size

/-- `first`: offset just past the header, `None` if it holds the EOF byte. -/
def lp_first (buf : List Nat) : Option Nat :=
  if readByte buf HDR_SIZE = EOF then none else some HDR_SIZE

/-- `skip`: advance over the entry at `p` (tag+payload+backlen). -/
def lp_skip (buf : List Nat) (p : Nat) : Nat :=
  let entrylen := get_encoded_size buf p
  p + (entrylen + backlen_size entrylen)

/-- `next`. -/
def lp_next (buf : List Nat) (p : Nat) : Option Nat :=
  let q := lp_skip buf p
  if readByte buf q = EOF then none else some q

/-- `prev`: `None` when `p` is at or before the first-entry offset;
otherwise decode the backlen ending at `p - 1` and step back over the
previous entry. -/
def lp_prev (buf : List Nat) (p : Nat) : Option Nat :=
  if p ≤ HDR_SIZE then none
  else
    let prevlen := decode_backlen buf ((p - 1 : Nat) : Int)
    some (p - (prevlen + backlen_size prevlen))

/-- `last`: position at `total_bytes - 1` (the EOF byte) and step back. -/
def lp_last (buf : List Nat) : Option Nat :=
  lp_prev buf (get_total_bytes buf - 1)

/-- The allocator of the model: deterministic and always succeeding.
`realloc` truncates or extends the allocation; extension bytes are
uninitialized in the source, marked 0xAB here. -/
def lp_realloc (buf : List Nat) (newsize : Nat) : List Nat :=
  if newsize ≤ buf.length then buf.take newsize
  else buf ++ List.replicate (newsize - buf.length) 0xAB

/-- `new`: allocate `HDR_SIZE + 1` bytes and write `total_bytes`.  `g` is
the uninitialized content of the fresh allocation returned by
`allocator.alloc(HDR_SIZE + 1)`; the source writes nothing but the
`total_bytes` field into it. -/
def lp_new (g : List Nat) : List Nat :=
  set_total_bytes g (HDR_SIZE + 1)

/-- Placement of an insertion relative to its target. -/
inductive Placement where
  | before
  | after
deriving DecidableEq

/-- `append`: grow the allocation, encode the new entry where the EOF
byte was, write a new EOF, and update the header only when the allocator
maintains one.  The u32 size addition wraps (release semantics). -/
def lp_append (hasHeader : Bool) (buf : List Nat) (v : Value) : Option (List Nat) :=
  let encoded_size := v.size_for_write
  let old_listpack_bytes := get_total_bytes buf
  let new_listpack_bytes := (old_listpack_bytes + encoded_size) % 4294967296
  if 4294967295 < new_listpack_bytes then none
  else
    let buf1 := lp_realloc buf new_listpack_bytes
    let buf2 := Value.encode v buf1 (old_listpack_bytes - 1) encoded_size
    let buf3 := writeByte buf2 (new_listpack_bytes - 1) EOF
    if hasHeader then
      let num := get_num_elements buf3
      let buf4 :=
        if num ≠ HDR_NUMELE_UNKNOWN then set_num_elements buf3 ((num + 1) % 65536) else buf3
      some (set_total_bytes buf4 new_listpack_bytes)
    else some buf3

/-- The main path of `insert` once the target is resolved to the byte
offset `poff` the new entry is to occupy: save the offset, grow the
allocation, shift the tail right, encode into the gap, write EOF, and
update the header fields (`insert` does this unconditionally, without
consulting `has_header()`). -/
def lp_insert_at (buf : List Nat) (v : Value)
    (old_listpack_bytes new_listpack_bytes encoded_size poff : Nat) :
    Option (List Nat × Option Nat) :=
  let buf1 := lp_realloc buf new_listpack_bytes
  let buf2 := copyWithin buf1 poff (poff + encoded_size) (old_listpack_bytes - poff)
  let buf3 := Value.encode v buf2 poff encoded_size
  let buf4 := writeByte buf3 (new_listpack_bytes - 1) EOF
  let num := get_num_elements buf4
  let buf5 :=
    if num ≠ HDR_NUMELE_UNKNOWN then set_num_elements buf4 ((num + 1) % 65536) else buf4
  some (set_total_bytes buf5 new_listpack_bytes, some poff)

/-- `insert`: a null (`none`) or EOF target falls through to `append`
under either placement, as does `After` a target with no successor;
otherwise the resolved target offset is handed to `lp_insert_at`. -/
def lp_insert (hasHeader : Bool) (buf : List Nat) (v : Value) (place : Placement)
    (target : Option Nat) : Option (List Nat × Option Nat) :=
  let encoded_size := v.size_for_write
  let old_listpack_bytes := get_total_bytes buf
  let new_listpack_bytes := (old_listpack_bytes + encoded_size) % 4294967296
  if 4294967295 < new_listpack_bytes then none
  else
    match place, target with
    | _, none => (lp_append hasHeader buf v).map (fun lp1 => (lp1, lp_last lp1))
    | .before, some t =>
      if readByte buf t = EOF then
        (lp_append hasHeader buf v).map (fun lp1 => (lp1, lp_last lp1))
      else lp_insert_at buf v old_listpack_bytes new_listpack_bytes encoded_size t
    | .after, some t =>
      if readByte buf t = EOF then
        (lp_append hasHeader buf v).map (fun lp1 => (lp1, lp_last lp1))
      else
        match lp_next buf t with
        | some ele => lp_insert_at buf v old_listpack_bytes new_listpack_bytes encoded_size ele
        | none => (lp_append hasHeader buf v).map (fun lp1 => (lp1, lp_last lp1))

/-- `replace`: equal old/new entry sizes return at once; a growth or
shrink shifts the tail and resizes.  Null-pointer guards of the source
cannot arise here; `p_uintptr <= lp_uintptr` is `p = 0`. -/
def lp_replace (buf : List Nat) (p : Nat) (v : Value) : Option (List Nat × Nat) :=
  if readByte buf p = EOF then none
  else
    let encoded_size := v.size_for_write
    let old_value := lp_get buf p
    let old_size := old_value.size_for_write
    if old_size = encoded_size then some (buf, p)
    else
      let delta : Int := (encoded_size : Int) - (old_size : Int)
      if delta = 0 then some (Value.encode v buf p encoded_size, p)
      else if p = 0 then none
      else
        let poff := p
        let old_listpack_bytes := get_total_bytes buf
        let new_listpack_bytes := ((old_listpack_bytes : Int) + delta).toNat
        if new_listpack_bytes < poff then none
        else if 4294967295 < new_listpack_bytes then none
        else if 0 < delta then
          match lp_next buf p with
          | some ele =>
            if ele ≤ p then none
            else
              let buf1 := lp_realloc buf new_listpack_bytes
              let buf2 := copyWithin buf1 ele (ele + delta.toNat) (old_listpack_bytes - ele)
              some (set_total_bytes buf2 new_listpack_bytes, poff)
          | none =>
            let buf1 := lp_realloc buf new_listpack_bytes
            let buf2 := Value.encode v buf1 poff encoded_size
            let buf3 := writeByte buf2 (new_listpack_bytes - 1) EOF
            some (set_total_bytes buf3 new_listpack_bytes, poff)
        else
          match lp_next buf p with
          | some ele =>
            if ele ≤ p then none
            else
              let buf1 := copyWithin buf ele (ele - (-delta).toNat) (old_listpack_bytes - ele)
              let buf2 := Value.encode v buf1 poff encoded_size
              let buf3 := lp_realloc buf2 new_listpack_bytes
              some (set_total_bytes buf3 new_listpack_bytes, poff)
          | none =>
            let buf1 := Value.encode v buf poff encoded_size
            let buf2 := writeByte buf1 (new_listpack_bytes - 1) EOF
            let buf3 := lp_realloc buf2 new_listpack_bytes
            some (set_total_bytes buf3 new_listpack_bytes, poff)

/-- `delete`: a last entry only shrinks the allocation and rewrites EOF
(the source updates no header field on that path); otherwise shift the
tail left, shrink, and update the header.  The u16 count decrement is
modelled with saturating `Nat` subtraction (it cannot underflow on a
well-formed input, where a tracked count is positive). -/
def lp_delete (buf : List Nat) (p : Nat) : Option (List Nat × Option Nat) :=
  let encoded_size := get_encoded_size buf p
  let backlen := backlen_size encoded_size
  let entry_size := encoded_size + backlen
  match lp_next buf p with
  | none =>
    let old_listpack_bytes := get_total_bytes buf
    if old_listpack_bytes = HDR_SIZE + 1 then none
    else
      let new_listpack_bytes := old_listpack_bytes - encoded_size - backlen
      let buf1 := lp_realloc buf new_listpack_bytes
      let buf2 := writeByte buf1 (new_listpack_bytes - 1) EOF
      some (buf2, lp_last buf2)
  | some _ =>
    let poff := p
    let old_listpack_bytes := get_total_bytes buf
    let new_listpack_bytes := old_listpack_bytes - entry_size
    let buf1 := copyWithin buf (poff + entry_size) poff
      (old_listpack_bytes - (poff + entry_size))
    let buf2 := lp_realloc buf1 new_listpack_bytes
    let num := get_num_elements buf2
    let buf3 := if num ≠ HDR_NUMELE_UNKNOWN then set_num_elements buf2 (num - 1) else buf2
    some (set_total_bytes buf3 new_listpack_bytes, some p)


example : lp_get (encode_int 20) 0 = Value.int 20 := by decide
example : lp_get (encode_int (-4096)) 0 = Value.int (-4096) := by decide
example : lp_get (encode_int (-32768)) 0 = Value.int (-32768) := by decide
example : lp_get (encode_int 2147483648) 0 = Value.int 2147483648 := by decide
example : lp_get (encode_int (-9223372036854775808)) 0 = Value.int (-9223372036854775808) := by
  decide
example : decode_backlen (encode_backlen 16383) 2 = 16383 := by decide
example : (encode_backlen 16383).length = 3 := by decide
example : str_len_12bit (encode_string (List.replicate 300 7)) 0 = 45 := by decide

/-! ### Bitwise bridge lemmas -/

theorem testBit_mul_pow_add (y x k i : Nat) (hx : x < 2 ^ k) :
    (y * 2 ^ k + x).testBit i = if i < k then x.testBit i else y.testBit (i - k) := by
  rcases Nat.lt_or_ge i k with h | h
  · rw [if_pos h]
    rw [Nat.testBit_to_div_mod, Nat.testBit_to_div_mod]
    have hk : k = (k - i) + i := by omega
    have h1 : y * 2 ^ k + x = x + (y * 2 ^ (k - i)) * 2 ^ i := by
      rw [Nat.mul_assoc, ← Nat.pow_add, ← hk]; omega
    rw [h1, Nat.add_mul_div_right _ _ (Nat.pos_pow_of_pos i (by norm_num))]
    have h2 : y * 2 ^ (k - i) = (y * 2 ^ (k - i - 1)) * 2 := by
      rw [Nat.mul_assoc]
      congr 1
      rw [← Nat.pow_succ]
      congr 1
      omega
    rw [h2, Nat.add_mul_mod_self_right]
  · rw [if_neg (by omega)]
    rw [Nat.testBit_to_div_mod, Nat.testBit_to_div_mod]
    have h1 : (2 : Nat) ^ i = 2 ^ k * 2 ^ (i - k) := by
      rw [← Nat.pow_add]; congr 1; omega
    rw [h1, ← Nat.div_div_eq_div_mul]
    have h2 : (y * 2 ^ k + x) / 2 ^ k = y := by
      rw [Nat.mul_comm, Nat.mul_add_div (Nat.pos_pow_of_pos k (by norm_num)),
        Nat.div_eq_of_lt hx]
      omega
    rw [h2]

theorem lor_shiftLeft_eq_add (x y k : Nat) (hx : x < 2 ^ k) :
    x ||| (y <<< k) = y * 2 ^ k + x := by
  apply Nat.eq_of_testBit_eq
  intro i
  rw [Nat.testBit_lor, Nat.testBit_shiftLeft, testBit_mul_pow_add y x k i hx]
  by_cases h : i < k
  · simp [h, show ¬(i ≥ k) by omega]
  · have hxi : x.testBit i = false :=
      Nat.testBit_eq_false_of_lt
        (lt_of_lt_of_le hx (Nat.pow_le_pow_right (by norm_num) (by omega)))
    simp [h, show i ≥ k by omega, hxi]

theorem land_two_pow_sub_one_eq_mod (x k : Nat) : x &&& (2 ^ k - 1) = x % 2 ^ k := by
  apply Nat.eq_of_testBit_eq
  intro i
  rw [Nat.testBit_land, Nat.testBit_mod_two_pow, Nat.testBit_two_pow_sub_one,
    Bool.and_comm]

theorem land_255_eq_mod (x : Nat) : x &&& 255 = x % 256 := by
  have h := land_two_pow_sub_one_eq_mod x 8
  norm_num at h
  exact h

theorem land_127_eq_mod (x : Nat) : x &&& 127 = x % 128 := by
  have h := land_two_pow_sub_one_eq_mod x 7
  norm_num at h
  exact h

theorem tag13_facts : ∀ a < 32, (a ||| 192) &&& 128 = 128 ∧ (a ||| 192) &&& 192 = 192 ∧
    (a ||| 192) &&& 224 = 192 ∧ (a ||| 192) &&& 31 = a := by decide

theorem tag7_facts : ∀ a < 128, a &&& 128 = 0 ∧ a &&& 127 = a := by decide

theorem enc7 (v : Int) (h0 : 0 ≤ v) (h1 : v ≤ 127) : lp_get (encode_int v) 0 = Value.int v := by
  have henc : encode_int v = [v.toNat % 256] := by rw [encode_int, if_pos ⟨h0, h1⟩]
  have hv : v.toNat % 256 = v.toNat := Nat.mod_eq_of_lt (by omega)
  obtain ⟨t1, t2⟩ := tag7_facts v.toNat (by omega)
  rw [henc, hv]
  simp only [lp_get, readByte, List.getD_cons_zero, is_7bit_uint, t1]
  simp only [beq_self_eq_true, if_pos, get_signed, t2]
  rw [if_neg (by omega), i64_of_u64, if_pos (by omega)]
  simp only [Value.int.injEq]
  omega

theorem enc13 (v : Int) (hlo : -4096 ≤ v) (hhi : v ≤ 4095)
    (hout : ¬(0 ≤ v ∧ v ≤ 127)) : lp_get (encode_int v) 0 = Value.int v := by
  have hw1 : ((if v < 0 then 8192 + v else v).toNat : Int) = if v < 0 then 8192 + v else v := by
    split <;> omega
  set w : Nat := (if v < 0 then 8192 + v else v).toNat with hw
  have hwlt : w < 8192 := by split at hw1 <;> omega
  have hsh : w >>> 8 < 32 := by rw [Nat.shiftRight_eq_div_pow]; omega
  have hmod : (w >>> 8) % 256 = w >>> 8 := Nat.mod_eq_of_lt (by omega)
  have henc : encode_int v = [((w >>> 8) % 256) ||| 0xC0, w &&& 0xff] := by
    rw [encode_int, if_neg hout, if_pos ⟨hlo, hhi⟩]
  obtain ⟨t1, t2, t3, t4⟩ := tag13_facts (w >>> 8) hsh
  rw [henc, hmod]
  simp only [lp_get, readByte, List.getD_cons_zero, List.getD_cons_succ, Nat.reduceAdd,
    is_7bit_uint, is_6bit_str, is_13bit_int, t1, t2, t3]
  norm_num
  simp only [t4, get_signed, land_255_eq_mod]
  have hcomb : ((w >>> 8) <<< 8) ||| (w % 256) = w := by
    rw [Nat.lor_comm, lor_shiftLeft_eq_add _ _ 8 (by omega), Nat.shiftRight_eq_div_pow]
    norm_num
    omega
  rw [hcomb]
  by_cases hneg : v < 0
  · rw [if_pos (by rw [if_pos hneg] at hw1; omega)]
    rw [i64_of_u64, if_pos (by omega)]
    simp only [Value.int.injEq]
    rw [if_pos hneg] at hw1
    omega
  · rw [if_neg (by rw [if_neg hneg] at hw1; omega)]
    rw [i64_of_u64, if_pos (by omega)]
    simp only [Value.int.injEq]
    rw [if_neg hneg] at hw1
    omega

theorem tag16_consts : is_7bit_uint 241 = false ∧ is_6bit_str 241 = false ∧
    is_13bit_int 241 = false ∧ is_16bit_int 241 = true := by decide

theorem enc16 (v : Int) (hlo : -32768 ≤ v) (hhi : v ≤ 32767)
    (h7 : ¬(0 ≤ v ∧ v ≤ 127)) (h13 : ¬(-4096 ≤ v ∧ v ≤ 4095)) :
    lp_get (encode_int v) 0 = Value.int v := by
  have hw1 : ((if v < 0 then 65536 + v else v).toNat : Int) = if v < 0 then 65536 + v else v := by
    split <;> omega
  set w : Nat := (if v < 0 then 65536 + v else v).toNat with hw
  have hwlt : w < 65536 := by split at hw1 <;> omega
  have hsh : w >>> 8 < 256 := by rw [Nat.shiftRight_eq_div_pow]; omega
  have hmod : (w >>> 8) % 256 = w >>> 8 := Nat.mod_eq_of_lt hsh
  have henc : encode_int v = [0xF1, w &&& 0xff, (w >>> 8) % 256] := by
    rw [encode_int, if_neg h7, if_neg h13, if_pos ⟨hlo, hhi⟩]
  obtain ⟨q1, q2, q3, q4⟩ := tag16_consts
  rw [henc, hmod]
  simp only [lp_get, readByte, List.getD_cons_zero, List.getD_cons_succ, Nat.reduceAdd,
    q1, q2, q3, q4]
  simp only [Bool.false_eq_true, if_false, if_true, get_signed, land_255_eq_mod]
  have hcomb : (w % 256) ||| ((w >>> 8) <<< 8) = w := by
    rw [lor_shiftLeft_eq_add _ _ 8 (by omega), Nat.shiftRight_eq_div_pow]
    norm_num
    omega
  rw [hcomb]
  by_cases hneg : v < 0
  · rw [if_pos (by rw [if_pos hneg] at hw1; omega)]
    rw [i64_of_u64, if_pos (by omega)]
    simp only [Value.int.injEq]
    rw [if_pos hneg] at hw1
    omega
  · rw [if_neg (by rw [if_neg hneg] at hw1; omega)]
    rw [i64_of_u64, if_pos (by omega)]
    simp only [Value.int.injEq]
    rw [if_neg hneg] at hw1
    omega

theorem tag24_consts : is_7bit_uint 242 = false ∧ is_6bit_str 242 = false ∧
    is_13bit_int 242 = false ∧ is_16bit_int 242 = false ∧ is_24bit_int 242 = true := by decide

theorem enc24 (v : Int) (hlo : -8388608 ≤ v) (hhi : v ≤ 8388607)
    (h7 : ¬(0 ≤ v ∧ v ≤ 127)) (h13 : ¬(-4096 ≤ v ∧ v ≤ 4095))
    (h16 : ¬(-32768 ≤ v ∧ v ≤ 32767)) :
    lp_get (encode_int v) 0 = Value.int v := by
  have hw1 : ((if v < 0 then 16777216 + v else v).toNat : Int) =
      if v < 0 then 16777216 + v else v := by
    split <;> omega
  set w : Nat := (if v < 0 then 16777216 + v else v).toNat with hw
  have hwlt : w < 16777216 := by split at hw1 <;> omega
  have hsh : w >>> 16 < 256 := by rw [Nat.shiftRight_eq_div_pow]; omega
  have hmod : (w >>> 16) % 256 = w >>> 16 := Nat.mod_eq_of_lt hsh
  have henc : encode_int v = [0xF2, w &&& 0xff, (w >>> 8) &&& 0xff, (w >>> 16) % 256] := by
    rw [encode_int, if_neg h7, if_neg h13, if_neg h16, if_pos ⟨hlo, hhi⟩]
  obtain ⟨q1, q2, q3, q4, q5⟩ := tag24_consts
  rw [henc, hmod]
  simp only [lp_get, readByte, List.getD_cons_zero, List.getD_cons_succ, Nat.reduceAdd,
    q1, q2, q3, q4, q5]
  simp only [Bool.false_eq_true, if_false, if_true, get_signed, land_255_eq_mod]
  have hcomb : ((w % 256) ||| (((w >>> 8) % 256) <<< 8)) ||| ((w >>> 16) <<< 16) = w := by
    rw [lor_shiftLeft_eq_add (w % 256) ((w >>> 8) % 256) 8 (by omega)]
    rw [lor_shiftLeft_eq_add _ (w >>> 16) 16 (by omega)]
    rw [Nat.shiftRight_eq_div_pow, Nat.shiftRight_eq_div_pow]
    norm_num
    omega
  rw [hcomb]
  by_cases hneg : v < 0
  · rw [if_pos (by rw [if_pos hneg] at hw1; omega)]
    rw [i64_of_u64, if_pos (by omega)]
    simp only [Value.int.injEq]
    rw [if_pos hneg] at hw1
    omega
  · rw [if_neg (by rw [if_neg hneg] at hw1; omega)]
    rw [i64_of_u64, if_pos (by omega)]
    simp only [Value.int.injEq]
    rw [if_neg hneg] at hw1
    omega

theorem tag32_consts : is_7bit_uint 243 = false ∧ is_6bit_str 243 = false ∧
    is_13bit_int 243 = false ∧ is_16bit_int 243 = false ∧ is_24bit_int 243 = false ∧
    is_32bit_int 243 = true := by decide

theorem enc32 (v : Int) (hlo : -2147483648 ≤ v) (hhi : v ≤ 2147483647)
    (h7 : ¬(0 ≤ v ∧ v ≤ 127)) (h13 : ¬(-4096 ≤ v ∧ v ≤ 4095))
    (h16 : ¬(-32768 ≤ v ∧ v ≤ 32767)) (h24 : ¬(-8388608 ≤ v ∧ v ≤ 8388607)) :
    lp_get (encode_int v) 0 = Value.int v := by
  have hw1 : ((if v < 0 then 4294967296 + v else v).toNat : Int) =
      if v < 0 then 4294967296 + v else v := by
    split <;> omega
  set w : Nat := (if v < 0 then 4294967296 + v else v).toNat with hw
  have hwlt : w < 4294967296 := by split at hw1 <;> omega
  have hsh : w >>> 24 < 256 := by rw [Nat.shiftRight_eq_div_pow]; omega
  have hmod : (w >>> 24) % 256 = w >>> 24 := Nat.mod_eq_of_lt hsh
  have henc : encode_int v =
      [0xF3, w &&& 0xff, (w >>> 8) &&& 0xff, (w >>> 16) &&& 0xff, (w >>> 24) % 256] := by
    rw [encode_int, if_neg h7, if_neg h13, if_neg h16, if_neg h24, if_pos ⟨hlo, hhi⟩]
  obtain ⟨q1, q2, q3, q4, q5, q6⟩ := tag32_consts
  rw [henc, hmod]
  simp only [lp_get, readByte, List.getD_cons_zero, List.getD_cons_succ, Nat.reduceAdd,
    q1, q2, q3, q4, q5, q6]
  simp only [Bool.false_eq_true, if_false, if_true, get_signed, land_255_eq_mod]
  have hcomb : (((w % 256) ||| (((w >>> 8) % 256) <<< 8)) ||| (((w >>> 16) % 256) <<< 16)) |||
      ((w >>> 24) <<< 24) = w := by
    rw [lor_shiftLeft_eq_add (w % 256) ((w >>> 8) % 256) 8 (by omega)]
    rw [lor_shiftLeft_eq_add _ ((w >>> 16) % 256) 16 (by omega)]
    rw [lor_shiftLeft_eq_add _ (w >>> 24) 24 (by omega)]
    rw [Nat.shiftRight_eq_div_pow, Nat.shiftRight_eq_div_pow, Nat.shiftRight_eq_div_pow]
    norm_num
    omega
  rw [hcomb]
  by_cases hneg : v < 0
  · rw [if_pos (by rw [if_pos hneg] at hw1; omega)]
    rw [i64_of_u64, if_pos (by omega)]
    simp only [Value.int.injEq]
    rw [if_pos hneg] at hw1
    omega
  · rw [if_neg (by rw [if_neg hneg] at hw1; omega)]
    rw [i64_of_u64, if_pos (by omega)]
    simp only [Value.int.injEq]
    rw [if_neg hneg] at hw1
    omega

theorem tag64_consts : is_7bit_uint 244 = false ∧ is_6bit_str 244 = false ∧
    is_13bit_int 244 = false ∧ is_16bit_int 244 = false ∧ is_24bit_int 244 = false ∧
    is_32bit_int 244 = false ∧ is_64bit_int 244 = true := by decide

theorem enc64 (v : Int) (hlo : -9223372036854775808 ≤ v) (hhi : v ≤ 9223372036854775807)
    (h7 : ¬(0 ≤ v ∧ v ≤ 127)) (h13 : ¬(-4096 ≤ v ∧ v ≤ 4095))
    (h16 : ¬(-32768 ≤ v ∧ v ≤ 32767)) (h24 : ¬(-8388608 ≤ v ∧ v ≤ 8388607))
    (h32 : ¬(-2147483648 ≤ v ∧ v ≤ 2147483647)) :
    lp_get (encode_int v) 0 = Value.int v := by
  set w : Nat := (v % 18446744073709551616).toNat with hw
  have hw1 : (w : Int) = v % 18446744073709551616 := by rw [hw]; omega
  have hwlt : w < 18446744073709551616 := by omega
  have hsh : w >>> 56 < 256 := by rw [Nat.shiftRight_eq_div_pow]; omega
  have hmod : (w >>> 56) % 256 = w >>> 56 := Nat.mod_eq_of_lt hsh
  have henc : encode_int v =
      [0xF4, w &&& 0xff, (w >>> 8) &&& 0xff, (w >>> 16) &&& 0xff, (w >>> 24) &&& 0xff,
        (w >>> 32) &&& 0xff, (w >>> 40) &&& 0xff, (w >>> 48) &&& 0xff, (w >>> 56) % 256] := by
    rw [encode_int, if_neg h7, if_neg h13, if_neg h16, if_neg h24, if_neg h32]
  obtain ⟨q1, q2, q3, q4, q5, q6, q7⟩ := tag64_consts
  rw [henc, hmod]
  simp only [lp_get, readByte, List.getD_cons_zero, List.getD_cons_succ, Nat.reduceAdd,
    q1, q2, q3, q4, q5, q6, q7]
  simp only [Bool.false_eq_true, if_false, if_true, get_signed, land_255_eq_mod]
  have hcomb : w % 256 ||| ((w >>> 8) % 256) <<< 8 ||| ((w >>> 16) % 256) <<< 16 |||
      ((w >>> 24) % 256) <<< 24 ||| ((w >>> 32) % 256) <<< 32 |||
      ((w >>> 40) % 256) <<< 40 ||| ((w >>> 48) % 256) <<< 48 |||
      (w >>> 56) <<< 56 = w := by
    rw [lor_shiftLeft_eq_add (w % 256) ((w >>> 8) % 256) 8 (by omega)]
    rw [lor_shiftLeft_eq_add _ ((w >>> 16) % 256) 16 (by omega)]
    rw [lor_shiftLeft_eq_add _ ((w >>> 24) % 256) 24 (by omega)]
    rw [lor_shiftLeft_eq_add _ ((w >>> 32) % 256) 32 (by omega)]
    rw [lor_shiftLeft_eq_add _ ((w >>> 40) % 256) 40 (by omega)]
    rw [lor_shiftLeft_eq_add _ ((w >>> 48) % 256) 48 (by omega)]
    rw [lor_shiftLeft_eq_add _ (w >>> 56) 56 (by omega)]
    rw [Nat.shiftRight_eq_div_pow, Nat.shiftRight_eq_div_pow, Nat.shiftRight_eq_div_pow,
      Nat.shiftRight_eq_div_pow, Nat.shiftRight_eq_div_pow, Nat.shiftRight_eq_div_pow,
      Nat.shiftRight_eq_div_pow]
    norm_num
    omega
  rw [hcomb]
  by_cases hneg : v < 0
  · rw [if_pos (by omega)]
    rw [i64_of_u64, if_pos (by omega)]
    simp only [Value.int.injEq]
    omega
  · rw [if_neg (by omega)]
    rw [i64_of_u64, if_pos (by omega)]
    simp only [Value.int.injEq]
    omega

/-- C6: for every i64 value, decoding the integer encoding (`encode_int`
then `get`) yields `Value::Int` of the same value, and the encoded length
matches the documented range table (7-bit unsigned for 0..127 in 1 byte,
13-bit for -4096..4095 in 2, 16-bit for -32768..32767 in 3, 24-bit in 4,
32-bit in 5, 64-bit in 9). -/
theorem C6_int_roundtrip (v : Int)
    (h : -9223372036854775808 ≤ v ∧ v ≤ 9223372036854775807) :
    lp_get (encode_int v) 0 = Value.int v ∧
    (encode_int v).length =
      (if 0 ≤ v ∧ v ≤ 127 then 1
       else if -4096 ≤ v ∧ v ≤ 4095 then 2
       else if -32768 ≤ v ∧ v ≤ 32767 then 3
       else if -8388608 ≤ v ∧ v ≤ 8388607 then 4
       else if -2147483648 ≤ v ∧ v ≤ 2147483647 then 5
       else 9) := by
  constructor
  · by_cases c1 : 0 ≤ v ∧ v ≤ 127
    · exact enc7 v c1.1 c1.2
    by_cases c2 : -4096 ≤ v ∧ v ≤ 4095
    · exact enc13 v c2.1 c2.2 c1
    by_cases c3 : -32768 ≤ v ∧ v ≤ 32767
    · exact enc16 v c3.1 c3.2 c1 c2
    by_cases c4 : -8388608 ≤ v ∧ v ≤ 8388607
    · exact enc24 v c4.1 c4.2 c1 c2 c3
    by_cases c5 : -2147483648 ≤ v ∧ v ≤ 2147483647
    · exact enc32 v c5.1 c5.2 c1 c2 c3 c4
    exact enc64 v h.1 h.2 c1 c2 c3 c4 c5
  · rw [encode_int]
    split_ifs <;> simp

/-- Witness for C6 at the eighteen boundary values listed in the claim. -/
theorem C6_int_roundtrip_witness :
    (lp_get (encode_int (-9223372036854775808)) 0 = Value.int (-9223372036854775808) ∧
      (encode_int (-9223372036854775808)).length = 9) ∧
    (lp_get (encode_int (-2147483649)) 0 = Value.int (-2147483649) ∧
      (encode_int (-2147483649)).length = 9) ∧
    (lp_get (encode_int (-2147483648)) 0 = Value.int (-2147483648) ∧
      (encode_int (-2147483648)).length = 5) ∧
    (lp_get (encode_int (-32769)) 0 = Value.int (-32769) ∧
      (encode_int (-32769)).length = 4) ∧
    (lp_get (encode_int (-32768)) 0 = Value.int (-32768) ∧
      (encode_int (-32768)).length = 3) ∧
    (lp_get (encode_int (-4097)) 0 = Value.int (-4097) ∧
      (encode_int (-4097)).length = 3) ∧
    (lp_get (encode_int (-4096)) 0 = Value.int (-4096) ∧
      (encode_int (-4096)).length = 2) ∧
    (lp_get (encode_int (-1)) 0 = Value.int (-1) ∧ (encode_int (-1)).length = 2) ∧
    (lp_get (encode_int 0) 0 = Value.int 0 ∧ (encode_int 0).length = 1) ∧
    (lp_get (encode_int 127) 0 = Value.int 127 ∧ (encode_int 127).length = 1) ∧
    (lp_get (encode_int 128) 0 = Value.int 128 ∧ (encode_int 128).length = 2) ∧
    (lp_get (encode_int 4095) 0 = Value.int 4095 ∧ (encode_int 4095).length = 2) ∧
    (lp_get (encode_int 4096) 0 = Value.int 4096 ∧ (encode_int 4096).length = 3) ∧
    (lp_get (encode_int 32767) 0 = Value.int 32767 ∧ (encode_int 32767).length = 3) ∧
    (lp_get (encode_int 32768) 0 = Value.int 32768 ∧ (encode_int 32768).length = 4) ∧
    (lp_get (encode_int 2147483647) 0 = Value.int 2147483647 ∧
      (encode_int 2147483647).length = 5) ∧
    (lp_get (encode_int 2147483648) 0 = Value.int 2147483648 ∧
      (encode_int 2147483648).length = 9) ∧
    (lp_get (encode_int 9223372036854775807) 0 = Value.int 9223372036854775807 ∧
      (encode_int 9223372036854775807).length = 9) := by
  exact ⟨⟨(C6_int_roundtrip (-9223372036854775808) (by norm_num)).1, by decide⟩,
    ⟨(C6_int_roundtrip (-2147483649) (by norm_num)).1, by decide⟩,
    ⟨(C6_int_roundtrip (-2147483648) (by norm_num)).1, by decide⟩,
    ⟨(C6_int_roundtrip (-32769) (by norm_num)).1, by decide⟩,
    ⟨(C6_int_roundtrip (-32768) (by norm_num)).1, by decide⟩,
    ⟨(C6_int_roundtrip (-4097) (by norm_num)).1, by decide⟩,
    ⟨(C6_int_roundtrip (-4096) (by norm_num)).1, by decide⟩,
    ⟨(C6_int_roundtrip (-1) (by norm_num)).1, by decide⟩,
    ⟨(C6_int_roundtrip 0 (by norm_num)).1, by decide⟩,
    ⟨(C6_int_roundtrip 127 (by norm_num)).1, by decide⟩,
    ⟨(C6_int_roundtrip 128 (by norm_num)).1, by decide⟩,
    ⟨(C6_int_roundtrip 4095 (by norm_num)).1, by decide⟩,
    ⟨(C6_int_roundtrip 4096 (by norm_num)).1, by decide⟩,
    ⟨(C6_int_roundtrip 32767 (by norm_num)).1, by decide⟩,
    ⟨(C6_int_roundtrip 32768 (by norm_num)).1, by decide⟩,
    ⟨(C6_int_roundtrip 2147483647 (by norm_num)).1, by decide⟩,
    ⟨(C6_int_roundtrip 2147483648 (by norm_num)).1, by decide⟩,
    ⟨(C6_int_roundtrip 9223372036854775807 (by norm_num)).1, by decide⟩⟩

/-- C7 counterexample: at length 16383 the claim's documented size table
demands a 2-byte backlen, but `encode_backlen` (which compares with the
strict `l < 16383`) writes 3 bytes. -/
theorem C7_backlen_size_counterexample : ¬((encode_backlen 16383).length = 2) := by decide

/-- C7 (amended): for each size in {1, 127, 128, 16382, 16383, 2097150,
2097151, 268435455, 268435454}, encoding the backlen and backward-decoding
from the last written byte reproduces exactly the size, and the byte count
follows the code's strict-inequality table: 1 byte for sizes ≤ 127, 2 for
sizes < 16383, 3 for sizes < 2097151, 4 for sizes < 268435455, 5
otherwise (so 16383, 2097151 and 268435455 take one byte more than the
spec's table says). -/
theorem C7_backlen_roundtrip :
    (decode_backlen (encode_backlen 1) 0 = 1 ∧ (encode_backlen 1).length = 1) ∧
    (decode_backlen (encode_backlen 127) 0 = 127 ∧ (encode_backlen 127).length = 1) ∧
    (decode_backlen (encode_backlen 128) 1 = 128 ∧ (encode_backlen 128).length = 2) ∧
    (decode_backlen (encode_backlen 16382) 1 = 16382 ∧ (encode_backlen 16382).length = 2) ∧
    (decode_backlen (encode_backlen 16383) 2 = 16383 ∧ (encode_backlen 16383).length = 3) ∧
    (decode_backlen (encode_backlen 2097150) 2 = 2097150 ∧
      (encode_backlen 2097150).length = 3) ∧
    (decode_backlen (encode_backlen 2097151) 3 = 2097151 ∧
      (encode_backlen 2097151).length = 4) ∧
    (decode_backlen (encode_backlen 268435454) 3 = 268435454 ∧
      (encode_backlen 268435454).length = 4) ∧
    (decode_backlen (encode_backlen 268435455) 4 = 268435455 ∧
      (encode_backlen 268435455).length = 5) := by decide

/-- C9: decoding an element whose leading byte matches none of the
recognized tag patterns returns the deterministic sentinel integer
`12345678900000000 + raw_byte` instead of failing. -/
theorem C9_unrecognized_tag_sentinel (buf : List Nat) (p : Nat)
    (hb : readByte buf p < 256)
    (hrec : ¬(is_7bit_uint (readByte buf p) = true ∨ is_6bit_str (readByte buf p) = true ∨
      is_13bit_int (readByte buf p) = true ∨ is_12bit_str (readByte buf p) = true ∨
      is_16bit_int (readByte buf p) = true ∨ is_24bit_int (readByte buf p) = true ∨
      is_32bit_int (readByte buf p) = true ∨ is_64bit_int (readByte buf p) = true ∨
      is_32bit_str (readByte buf p) = true)) :
    lp_get buf p = Value.int (12345678900000000 + readByte buf p) := by
  push_neg at hrec
  obtain ⟨h1, h2, h3, h4, h5, h6, h7, h8, h9⟩ := hrec
  simp only [ne_eq, Bool.not_eq_true] at h1 h2 h3 h4 h5 h6 h7 h8 h9
  simp only [lp_get, h1, h2, h3, h4, h5, h6, h7, h8, h9]
  simp only [Bool.false_eq_true, if_false]
  rw [get_signed, if_neg (by omega), i64_of_u64, if_pos (by omega)]
  simp only [Value.int.injEq]
  push_cast
  ring

/-- Witness for C9 at the EOF byte 0xFF, the concrete unrecognized tag. -/
theorem C9_unrecognized_tag_sentinel_witness :
    lp_get [255] 0 = Value.int 12345678900000255 := by
  have h := C9_unrecognized_tag_sentinel [255] 0 (by decide) (by decide)
  simpa [readByte] using h

theorem readByte_oob (b : List Nat) (j : Nat) (h : b.length ≤ j) : readByte b j = 0 := by
  unfold readByte
  rw [List.getD_eq_getElem?_getD, List.getElem?_eq_none h]
  rfl

theorem readByte_writeByte (b : List Nat) (i v j : Nat) :
    readByte (writeByte b i v) j = if i = j ∧ j < b.length then v else readByte b j := by
  unfold readByte writeByte
  by_cases h : i = j ∧ j < b.length
  · obtain ⟨h1, h2⟩ := h
    subst h1
    rw [if_pos ⟨rfl, h2⟩, List.getD_eq_getElem?_getD, List.getElem?_set_self h2]
    rfl
  · rw [if_neg h]
    by_cases hij : i = j
    · subst hij
      have hlen : b.length ≤ i := by
        rcases Nat.lt_or_ge i b.length with h2 | h2
        · exact absurd ⟨rfl, h2⟩ h
        · exact h2
      rw [List.getD_eq_getElem?_getD, List.getD_eq_getElem?_getD,
        List.getElem?_eq_none (by rw [List.length_set]; omega), List.getElem?_eq_none hlen]
    · rw [List.getD_eq_getElem?_getD, List.getD_eq_getElem?_getD, List.getElem?_set_ne hij]

theorem length_writeByte (b : List Nat) (i v : Nat) : (writeByte b i v).length = b.length :=
  List.length_set b i v

theorem readByte_rangeMap (L : Nat) (f : Nat → Nat) (j : Nat) :
    readByte ((List.range L).map f) j = if j < L then f j else 0 := by
  unfold readByte
  rcases Nat.lt_or_ge j L with h | h
  · rw [if_pos h, List.getD_eq_getElem?_getD, List.getElem?_map, List.getElem?_range h]
    rfl
  · rw [if_neg (by omega), List.getD_eq_getElem?_getD, List.getElem?_map,
      List.getElem?_eq_none (by rw [List.length_range]; omega)]
    rfl

theorem length_copyWithin (b : List Nat) (src dst n : Nat) :
    (copyWithin b src dst n).length = b.length := by
  unfold copyWithin
  rw [List.length_map, List.length_range]

theorem readByte_copyWithin (b : List Nat) (src dst n j : Nat) :
    readByte (copyWithin b src dst n) j =
      if j < b.length then
        (if dst ≤ j ∧ j < dst + n then readByte b (src + (j - dst)) else readByte b j)
      else 0 := by
  unfold copyWithin
  rw [readByte_rangeMap]

theorem readByte_copyWithin_out (b : List Nat) (src dst n j : Nat)
    (hj : j < dst ∨ dst + n ≤ j) :
    readByte (copyWithin b src dst n) j = readByte b j := by
  rw [readByte_copyWithin]
  split_ifs with h1 h2
  · omega
  · rfl
  · exact (readByte_oob b j (by omega)).symm

theorem length_writeBytes (b : List Nat) (pos : Nat) (data : List Nat) :
    (writeBytes b pos data).length = b.length := by
  unfold writeBytes
  rw [List.length_map, List.length_range]

theorem readByte_writeBytes (b : List Nat) (pos : Nat) (data : List Nat) (j : Nat) :
    readByte (writeBytes b pos data) j =
      if j < b.length then
        (if pos ≤ j ∧ j < pos + data.length then data.getD (j - pos) 0 else readByte b j)
      else 0 := by
  unfold writeBytes
  rw [readByte_rangeMap]

theorem readByte_writeBytes_lt (b : List Nat) (pos : Nat) (data : List Nat) (j : Nat)
    (hj : j < pos) :
    readByte (writeBytes b pos data) j = readByte b j := by
  rw [readByte_writeBytes]
  split_ifs with h1 h2
  · omega
  · rfl
  · exact (readByte_oob b j (by omega)).symm

theorem length_realloc (b : List Nat) (n : Nat) : (lp_realloc b n).length = n := by
  unfold lp_realloc
  split_ifs with h
  · rw [List.length_take]
    omega
  · rw [List.length_append, List.length_replicate]
    omega

theorem readByte_realloc (b : List Nat) (n j : Nat) (hj : j < n) (hjb : j < b.length) :
    readByte (lp_realloc b n) j = readByte b j := by
  unfold lp_realloc readByte
  split_ifs with h
  · rw [List.getD_eq_getElem?_getD, List.getElem?_take, if_pos hj, ← List.getD_eq_getElem?_getD]
  · rw [List.getD_eq_getElem?_getD, List.getElem?_append_left hjb,
      ← List.getD_eq_getElem?_getD]

theorem length_encode_backlen_at (b : List Nat) (pos l : Nat) :
    (Value.encode_backlen_at b pos l).length = b.length := by
  unfold Value.encode_backlen_at
  split_ifs <;> simp [length_writeByte]

theorem readByte_encode_backlen_at (b : List Nat) (pos l j : Nat) (hj : j < pos) :
    readByte (Value.encode_backlen_at b pos l) j = readByte b j := by
  unfold Value.encode_backlen_at
  split_ifs <;> (simp only [readByte_writeByte, length_writeByte]; repeat rw [if_neg (by omega)])

theorem length_encode (v : Value) (b : List Nat) (dst es : Nat) :
    (Value.encode v b dst es).length = b.length := by
  cases v with
  | int v0 =>
    simp only [Value.encode]
    split <;> simp [length_writeByte]
  | str data =>
    simp only [Value.encode]
    split_ifs <;>
      simp [length_encode_backlen_at, length_writeBytes, length_writeByte]

theorem readByte_encode (v : Value) (b : List Nat) (dst es j : Nat) (hj : j < dst) :
    readByte (Value.encode v b dst es) j = readByte b j := by
  cases v with
  | int v0 =>
    simp only [Value.encode]
    split <;>
      (simp only [readByte_writeByte, length_writeByte]; repeat rw [if_neg (by omega)])
  | str data =>
    simp only [Value.encode]
    split_ifs with h1 h2
    · rw [readByte_encode_backlen_at _ _ _ _ (by omega),
        readByte_writeBytes_lt _ _ _ _ (by omega)]
      simp only [readByte_writeByte, length_writeByte]
      repeat rw [if_neg (by omega)]
    · rw [readByte_encode_backlen_at _ _ _ _ (by omega),
        readByte_writeBytes_lt _ _ _ _ (by omega)]
      simp only [readByte_writeByte, length_writeByte]
      repeat rw [if_neg (by omega)]
    · rw [readByte_encode_backlen_at _ _ _ _ (by omega),
        readByte_writeBytes_lt _ _ _ _ (by omega)]
      simp only [readByte_writeByte, length_writeByte]
      repeat rw [if_neg (by omega)]

theorem get_set_total_bytes (b : List Nat) (v : Nat) (hb : 4 ≤ b.length) :
    get_total_bytes (set_total_bytes b v) = v % 4294967296 := by
  have h0 : 0 < b.length := by omega
  have h1 : 1 < b.length := by omega
  have h2 : 2 < b.length := by omega
  have h3 : 3 < b.length := by omega
  unfold get_total_bytes set_total_bytes
  simp only [readByte_writeByte, length_writeByte, h0, h1, h2, h3, and_true]
  norm_num
  rw [land_255_eq_mod, land_255_eq_mod, land_255_eq_mod, land_255_eq_mod]
  rw [lor_shiftLeft_eq_add _ _ 8 (by omega)]
  rw [lor_shiftLeft_eq_add _ _ 16 (by omega)]
  rw [lor_shiftLeft_eq_add _ _ 24 (by omega)]
  rw [Nat.shiftRight_eq_div_pow, Nat.shiftRight_eq_div_pow, Nat.shiftRight_eq_div_pow]
  norm_num
  omega

theorem get_num_set_total_bytes (b : List Nat) (v : Nat) :
    get_num_elements (set_total_bytes b v) = get_num_elements b := by
  unfold get_num_elements set_total_bytes
  simp only [readByte_writeByte, length_writeByte]
  repeat rw [if_neg (by omega)]

theorem get_total_set_num_elements (b : List Nat) (v : Nat) :
    get_total_bytes (set_num_elements b v) = get_total_bytes b := by
  unfold get_total_bytes set_num_elements
  simp only [readByte_writeByte, length_writeByte]
  repeat rw [if_neg (by omega)]

theorem get_set_num_elements (b : List Nat) (v : Nat) (hb : 6 ≤ b.length) :
    get_num_elements (set_num_elements b v) = v % 65536 := by
  have h4 : 4 < b.length := by omega
  have h5 : 5 < b.length := by omega
  unfold get_num_elements set_num_elements
  simp only [readByte_writeByte, length_writeByte, h4, h5, and_true]
  norm_num
  rw [land_255_eq_mod, land_255_eq_mod]
  rw [lor_shiftLeft_eq_add _ _ 8 (by omega)]
  rw [Nat.shiftRight_eq_div_pow]
  norm_num
  omega

theorem length_set_total_bytes (b : List Nat) (v : Nat) :
    (set_total_bytes b v).length = b.length := by
  unfold set_total_bytes
  simp [length_writeByte]

theorem length_set_num_elements (b : List Nat) (v : Nat) :
    (set_num_elements b v).length = b.length := by
  unfold set_num_elements
  simp [length_writeByte]

theorem encoded_size_pos (v : Value) : 1 ≤ v.encoded_size := by
  cases v <;> simp only [Value.encoded_size] <;> split_ifs <;> omega

theorem backlen_size_pos (l : Nat) : 1 ≤ backlen_size l := by
  unfold backlen_size
  split_ifs <;> omega

theorem size_for_write_ge_two (v : Value) : 2 ≤ v.size_for_write := by
  unfold Value.size_for_write
  have h1 := encoded_size_pos v
  have h2 := backlen_size_pos v.encoded_size
  omega

/-- C10: `append` updates the header fields (`num_elements` when tracked,
and `total_bytes`) only when the allocator's `has_header()` returns true
(with `has_header() = false` the first six bytes are untouched), whereas
`insert` with a valid non-EOF `Before` target never consults
`has_header()` (its result is independent of the flag) and updates
`num_elements` and `total_bytes` unconditionally. -/
theorem C10_append_gates_header_insert_does_not (h1 h2 : Bool) (buf : List Nat) (v : Value)
    (t : Nat)
    (hlen : buf.length = get_total_bytes buf)
    (hold : 7 ≤ get_total_bytes buf)
    (hno : get_total_bytes buf + v.size_for_write ≤ 4294967295)
    (ht : 6 ≤ t) (hteof : readByte buf t ≠ EOF) :
    (∀ lp1, lp_append false buf v = some lp1 →
      ∀ j, j < 6 → readByte lp1 j = readByte buf j) ∧
    (∀ lp1, lp_append true buf v = some lp1 →
      get_total_bytes lp1 = get_total_bytes buf + v.size_for_write ∧
      (get_num_elements buf ≠ 65535 →
        get_num_elements lp1 = (get_num_elements buf + 1) % 65536)) ∧
    (lp_insert h1 buf v .before (some t) = lp_insert h2 buf v .before (some t)) ∧
    (∀ lp1 e, lp_insert true buf v .before (some t) = some (lp1, e) →
      get_total_bytes lp1 = get_total_bytes buf + v.size_for_write ∧
      (get_num_elements buf ≠ 65535 →
        get_num_elements lp1 = (get_num_elements buf + 1) % 65536)) := by
  have hes := size_for_write_ge_two v
  have hmod : (get_total_bytes buf + v.size_for_write) % 4294967296 =
      get_total_bytes buf + v.size_for_write := Nat.mod_eq_of_lt (by omega)
  refine ⟨?_, ?_, ?_, ?_⟩
  · intro lp1 happ j hj
    simp only [lp_append, hmod] at happ
    rw [if_neg (by omega)] at happ
    simp only [Bool.false_eq_true, if_false, Option.some.injEq] at happ
    subst happ
    rw [readByte_writeByte]
    rw [if_neg (by simp only [length_encode, length_realloc]; omega)]
    rw [readByte_encode _ _ _ _ _ (by omega)]
    rw [readByte_realloc _ _ _ (by omega) (by omega)]
  · intro lp1 happ
    simp only [lp_append, HDR_NUMELE_UNKNOWN, hmod] at happ
    rw [if_neg (by omega)] at happ
    simp only [if_true, Option.some.injEq] at happ
    have hkey : ∀ j, j < 6 →
        readByte (writeByte (Value.encode v (lp_realloc buf
          (get_total_bytes buf + v.size_for_write)) (get_total_bytes buf - 1)
          v.size_for_write) (get_total_bytes buf + v.size_for_write - 1) EOF) j =
        readByte buf j := by
      intro j hj
      rw [readByte_writeByte]
      rw [if_neg (by simp only [length_encode, length_realloc]; omega)]
      rw [readByte_encode _ _ _ _ _ (by omega)]
      rw [readByte_realloc _ _ _ (by omega) (by omega)]
    have hklen : (writeByte (Value.encode v (lp_realloc buf
        (get_total_bytes buf + v.size_for_write)) (get_total_bytes buf - 1)
        v.size_for_write) (get_total_bytes buf + v.size_for_write - 1) EOF).length =
        get_total_bytes buf + v.size_for_write := by
      simp only [length_writeByte, length_encode, length_realloc]
    have hnum : get_num_elements (writeByte (Value.encode v (lp_realloc buf
        (get_total_bytes buf + v.size_for_write)) (get_total_bytes buf - 1)
        v.size_for_write) (get_total_bytes buf + v.size_for_write - 1) EOF) =
        get_num_elements buf := by
      unfold get_num_elements
      rw [hkey 4 (by omega), hkey 5 (by omega)]
    rw [hnum] at happ
    by_cases hu : get_num_elements buf ≠ 65535
    · rw [if_pos hu] at happ
      subst happ
      constructor
      · rw [get_set_total_bytes _ _ (by rw [length_set_num_elements, hklen]; omega), hmod]
      · intro _
        rw [get_num_set_total_bytes,
          get_set_num_elements _ _ (by rw [hklen]; omega), Nat.mod_mod_of_dvd _ (by norm_num)]
    · rw [if_neg hu] at happ
      subst happ
      constructor
      · rw [get_set_total_bytes _ _ (by rw [hklen]; omega), hmod]
      · intro hc
        exact absurd hc hu
  · simp only [lp_insert, hmod]
    rw [if_neg (by omega), if_neg hteof, if_neg (by omega), if_neg hteof]
  · intro lp1 e hins
    simp only [lp_insert, lp_insert_at, HDR_NUMELE_UNKNOWN, hmod] at hins
    rw [if_neg (by omega), if_neg hteof] at hins
    simp only [Option.some.injEq, Prod.mk.injEq] at hins
    obtain ⟨hins, -⟩ := hins
    have hkey : ∀ j, j < 6 →
        readByte (writeByte (Value.encode v (copyWithin (lp_realloc buf
          (get_total_bytes buf + v.size_for_write)) t (t + v.size_for_write)
          (get_total_bytes buf - t)) t v.size_for_write)
          (get_total_bytes buf + v.size_for_write - 1) EOF) j =
        readByte buf j := by
      intro j hj
      rw [readByte_writeByte]
      rw [if_neg (by simp only [length_encode, length_copyWithin, length_realloc]; omega)]
      rw [readByte_encode _ _ _ _ _ (by omega)]
      rw [readByte_copyWithin_out _ _ _ _ _ (by omega)]
      rw [readByte_realloc _ _ _ (by omega) (by omega)]
    have hklen : (writeByte (Value.encode v (copyWithin (lp_realloc buf
        (get_total_bytes buf + v.size_for_write)) t (t + v.size_for_write)
        (get_total_bytes buf - t)) t v.size_for_write)
        (get_total_bytes buf + v.size_for_write - 1) EOF).length =
        get_total_bytes buf + v.size_for_write := by
      simp only [length_writeByte, length_encode, length_copyWithin, length_realloc]
    have hnum : get_num_elements (writeByte (Value.encode v (copyWithin (lp_realloc buf
        (get_total_bytes buf + v.size_for_write)) t (t + v.size_for_write)
        (get_total_bytes buf - t)) t v.size_for_write)
        (get_total_bytes buf + v.size_for_write - 1) EOF) =
        get_num_elements buf := by
      unfold get_num_elements
      rw [hkey 4 (by omega), hkey 5 (by omega)]
    rw [hnum] at hins
    by_cases hu : get_num_elements buf ≠ 65535
    · rw [if_pos hu] at hins
      subst hins
      constructor
      · rw [get_set_total_bytes _ _ (by rw [length_set_num_elements, hklen]; omega), hmod]
      · intro _
        rw [get_num_set_total_bytes,
          get_set_num_elements _ _ (by rw [hklen]; omega),
          Nat.mod_mod_of_dvd _ (by norm_num)]
    · rw [if_neg hu] at hins
      subst hins
      constructor
      · rw [get_set_total_bytes _ _ (by rw [hklen]; omega), hmod]
      · intro hc
        exact absurd hc hu

/-- C8: inserting with a null or EOF target under either placement, or
`After` a target with no successor (in particular the last element),
yields exactly the listpack `append` produces. -/
theorem C8_insert_fallthrough_is_append (hasHeader : Bool) (buf : List Nat) (v : Value)
    (place : Placement) (target : Option Nat)
    (h : target = none ∨ (∃ t, target = some t ∧ readByte buf t = EOF) ∨
      (place = .after ∧ ∃ t, target = some t ∧ lp_next buf t = none)) :
    (lp_insert hasHeader buf v place target).map Prod.fst = lp_append hasHeader buf v := by
  have hmod2 : ¬(4294967295 <
      (get_total_bytes buf + v.size_for_write) % 4294967296) := by omega
  have hfall : ∀ x : Option (List Nat),
      (x.map (fun lp1 => (lp1, lp_last lp1))).map Prod.fst = x := by
    intro x
    cases x <;> rfl
  rcases h with rfl | ⟨t, rfl, hteof⟩ | ⟨rfl, t, rfl, hnext⟩
  · simp only [lp_insert]
    rw [if_neg hmod2]
    cases place <;> exact hfall _
  · cases place <;>
      · simp only [lp_insert]
        rw [if_neg hmod2, if_pos hteof]
        exact hfall _
  · simp only [lp_insert]
    rw [if_neg hmod2]
    by_cases hteof : readByte buf t = EOF
    · rw [if_pos hteof]
      exact hfall _
    · rw [if_neg hteof, hnext]
      exact hfall _

/-- Witness for C8: inserting `After` the single (hence last) entry of a
one-element listpack equals appending. -/
theorem C8_insert_fallthrough_is_append_witness :
    (lp_insert true [9, 0, 0, 0, 1, 0, 1, 1, 255] (Value.int 5) .after (some 6)).map
      Prod.fst = lp_append true [9, 0, 0, 0, 1, 0, 1, 1, 255] (Value.int 5) :=
  C8_insert_fallthrough_is_append true [9, 0, 0, 0, 1, 0, 1, 1, 255] (Value.int 5)
    .after (some 6) (Or.inr (Or.inr ⟨rfl, 6, rfl, by decide⟩))

/-- C1: on the single-entry listpack holding `Int 1`, replacing with the
equal-sized `Int 2` returns the buffer unchanged (the same-size path
returns before re-encoding), so the element still decodes to the old
value `Int 1`, not the new value. -/
theorem C1_replace_same_size_not_reencoded :
    lp_replace [9, 0, 0, 0, 1, 0, 1, 1, 255] 6 (Value.int 2) =
      some ([9, 0, 0, 0, 1, 0, 1, 1, 255], 6) ∧
    lp_get [9, 0, 0, 0, 1, 0, 1, 1, 255] 6 = Value.int 1 ∧
    Value.int 1 ≠ Value.int 2 := by decide

/-- C3: deleting the last (here: only) entry of a listpack with
`total_bytes = 9`, `num_elements = 1` shrinks the buffer and rewrites
EOF, but leaves `total_bytes` at 9 (claim: 7) and `num_elements` at 1
(claim: 0); the deleted value is indeed gone from traversal
(`first` is `none`). -/
theorem C3_delete_last_entry_header_stale :
    (lp_delete [9, 0, 0, 0, 1, 0, 1, 1, 255] 6).map
      (fun r => (get_total_bytes r.1, get_num_elements r.1, lp_first r.1)) =
      some (9, 1, none) := by decide

/-- C4: `new` on a fresh allocation whose uninitialized bytes are 0xAB
writes only `total_bytes = 7`: `num_elements` reads back as the garbage
0xABAB (claim: 0) and the final byte stays 0xAB (claim: the EOF byte
0xFF), so `first` returns an element instead of `None`. -/
theorem C4_new_leaves_numele_and_eof_unwritten :
    get_total_bytes (lp_new (List.replicate 7 171)) = 7 ∧
    get_num_elements (lp_new (List.replicate 7 171)) = 43947 ∧
    readByte (lp_new (List.replicate 7 171)) 6 = 171 ∧
    lp_first (lp_new (List.replicate 7 171)) = some 6 := by decide

/-- C5: `append` and `insert` never return `None` (with an allocator
that does not fail): their size-overflow guard compares the wrapped u32
sum `new_listpack_bytes` against `u32::MAX`, which cannot exceed it, so
the claimed fail-without-mutation path on overflow is unreachable. -/
theorem C5_size_guard_never_fails (hasHeader : Bool) (buf : List Nat) (v : Value)
    (place : Placement) (target : Option Nat) :
    (lp_append hasHeader buf v).isSome = true ∧
    (lp_insert hasHeader buf v place target).isSome = true := by
  have happ : (lp_append hasHeader buf v).isSome = true := by
    simp only [lp_append]
    rw [if_neg (by omega)]
    split <;> rfl
  refine ⟨happ, ?_⟩
  have hfall : ((lp_append hasHeader buf v).map
      (fun lp1 => (lp1, lp_last lp1))).isSome = true := by
    cases h : lp_append hasHeader buf v with
    | none =>
      rw [h] at happ
      exact absurd happ (by simp)
    | some x => rfl
  cases place with
  | before =>
    cases target with
    | none =>
      simp only [lp_insert]
      rw [if_neg (by omega)]
      exact hfall
    | some t =>
      simp only [lp_insert]
      rw [if_neg (by omega)]
      by_cases ht : readByte buf t = EOF
      · rw [if_pos ht]
        exact hfall
      · rw [if_neg ht]
        rfl
  | after =>
    cases target with
    | none =>
      simp only [lp_insert]
      rw [if_neg (by omega)]
      exact hfall
    | some t =>
      simp only [lp_insert]
      rw [if_neg (by omega)]
      by_cases ht : readByte buf t = EOF
      · rw [if_pos ht]
        exact hfall
      · rw [if_neg ht]
        cases lp_next buf t <;> first | exact hfall | rfl

/-- C2: the string round trip breaks at length 4095: `encode_string`
writes a 12-bit length prefix, but `str_len_12bit` drops the high nibble
(no `<< 8`), so `get` decodes a 255-byte string instead of the original
4095-byte one. -/
theorem C2_string_roundtrip_broken_at_4095 :
    lp_get (encode_string (List.replicate 4095 97)) 0 = Value.str (List.replicate 255 97) ∧
    lp_get (encode_string (List.replicate 4095 97)) 0 ≠
      Value.str (List.replicate 4095 97) := by
  have henc : encode_string (List.replicate 4095 97) =
      239 :: 255 :: List.replicate 4095 97 := by
    simp only [encode_string, List.length_replicate]
    rw [if_neg (by norm_num), if_pos (by norm_num)]
    simp only [List.cons.injEq]
    exact ⟨by decide, by decide, trivial⟩
  have p1 : is_7bit_uint 239 = false := by decide
  have p2 : is_6bit_str 239 = false := by decide
  have p3 : is_13bit_int 239 = false := by decide
  have p4 : is_16bit_int 239 = false := by decide
  have p5 : is_24bit_int 239 = false := by decide
  have p6 : is_32bit_int 239 = false := by decide
  have p7 : is_64bit_int 239 = false := by decide
  have p8 : is_12bit_str 239 = true := by decide
  have hget : ∀ rest : List Nat, lp_get (239 :: 255 :: rest) 0 =
      Value.str (rest.take 255) := by
    intro rest
    have hlen12 : str_len_12bit (239 :: 255 :: rest) 0 = 255 := by
      simp only [str_len_12bit, readByte, List.getD_cons_zero, List.getD_cons_succ]
      decide
    simp only [lp_get, readByte, List.getD_cons_zero, List.getD_cons_succ, p1, p2, p3,
      p4, p5, p6, p7, p8, Bool.false_eq_true, if_false, if_true, hlen12]
    rfl
  have htake : List.take 255 (List.replicate 4095 (97 : Nat)) = List.replicate 255 97 := by
    rw [List.take_replicate]
    congr 1
  have hmain : lp_get (encode_string (List.replicate 4095 97)) 0 =
      Value.str (List.replicate 255 97) := by
    rw [henc, hget (List.replicate 4095 97), htake]
  refine ⟨hmain, ?_⟩
  intro hcon
  rw [hmain, Value.str.injEq] at hcon
  have hl := congrArg List.length hcon
  rw [List.length_replicate, List.length_replicate] at hl
  omega

/-- Witness for C10 at a concrete one-entry listpack: inserting before
its entry gives the same result whether or not the allocator maintains a
header. -/
theorem C10_append_gates_header_insert_does_not_witness :
    lp_insert false [9, 0, 0, 0, 1, 0, 1, 1, 255] (Value.int 5) .before (some 6) =
    lp_insert true [9, 0, 0, 0, 1, 0, 1, 1, 255] (Value.int 5) .before (some 6) :=
  (C10_append_gates_header_insert_does_not false true [9, 0, 0, 0, 1, 0, 1, 1, 255]
    (Value.int 5) 6 (by decide) (by decide) (by decide) (by decide) (by decide)).2.2.1
